import Mathlib

/-!
Verification development for the browser-side client of the scheduling
assistant (src/static/js/chat.js).  The JavaScript string primitives used by
the code (String.prototype.split with a string separator, includes, trim) are
embedded at the character-list level so that every definition is executable
and kernel-reducible.  The separators used by the source are all non-empty
literals; the embedding documents this where it matters.
-/

set_option maxRecDepth 32768

/-- Whitespace recognised by JavaScript trim and the regex class backslash-s,
restricted to the ASCII range (all inputs in this development are ASCII). -/
def jsWhitespaceChar (c : Char) : Bool :=
  c = ' ' || c = '\t' || c = '\n' || c = '\r' || c = '\x0b' || c = '\x0c'

/-- Model of JavaScript String.prototype.trim on character lists. -/
def jsTrimList (l : List Char) : List Char :=
  ((l.dropWhile jsWhitespaceChar).reverse.dropWhile jsWhitespaceChar).reverse

/-- Model of JavaScript String.prototype.trim. -/
def jsTrim (s : String) : String := ⟨jsTrimList s.data⟩

/-- Split a character list at the first occurrence of the separator `sep`:
returns `some (pre, post)` with the input equal to `pre ++ sep ++ post` and
`pre` of minimal length, or `none` when `sep` does not occur.  This is the
primitive underlying the models of JavaScript `split` and `includes`. -/
def splitFirstList (sep : List Char) : List Char → Option (List Char × List Char)
  | [] => if sep.isPrefixOf ([] : List Char) then some ([], []) else none
  | c :: cs =>
    if sep.isPrefixOf (c :: cs) then some ([], (c :: cs).drop sep.length)
    else (splitFirstList sep cs).map (fun p => (c :: p.1, p.2))

/-- Model of JavaScript String.prototype.includes: the argument occurs as a
contiguous substring. -/
def jsIncludes (s sub : String) : Bool :=
  (splitFirstList sub.data s.data).isSome

/-- Fuel-driven worker for the model of JavaScript String.prototype.split
with a string separator: repeatedly cut at the first occurrence of the
separator.  The fuel is only a termination device; `jsSplitList` supplies
enough fuel for any non-empty separator. -/
def jsSplitListAux (sep : List Char) : Nat → List Char → List (List Char)
  | 0, l => [l]
  | fuel + 1, l =>
    match splitFirstList sep l with
    | none => [l]
    | some (pre, post) => pre :: jsSplitListAux sep fuel post

/-- Model of JavaScript String.prototype.split with a (non-empty) string
separator on character lists. -/
def jsSplitList (sep l : List Char) : List (List Char) :=
  jsSplitListAux sep (l.length + 1) l

/-- Model of `s.split(sep)` for the non-empty string separators used in
chat.js (the selection marker, `"\n"`, and `". "`). -/
def jsSplit (s sep : String) : List String :=
  (jsSplitList sep.data s.data).map (fun l => ⟨l⟩)

/-- Escaping performed by `escapeHtml` (chat.js lines 365-371): assigning
`textContent` and reading back `innerHTML` escapes the HTML-significant
characters ampersand, less-than and greater-than. -/
def escapeHtmlChar (c : Char) : List Char :=
  if c = '&' then "&amp;".data
  else if c = '<' then "&lt;".data
  else if c = '>' then "&gt;".data
  else [c]

/-- Model of `escapeHtml` (chat.js lines 365-371) on string inputs. -/
def escapeHtml (s : String) : String :=
  ⟨(s.data.map escapeHtmlChar).flatten⟩

/-! ### Correctness of the first-occurrence splitter -/

theorem splitFirstList_append {sep pre post l : List Char}
    (h : splitFirstList sep l = some (pre, post)) : l = pre ++ sep ++ post := by
  induction l generalizing pre with
  | nil =>
    simp only [splitFirstList] at h
    split at h
    · rename_i hp
      have hsep : sep = [] := List.length_eq_zero.mp
        (Nat.le_zero.mp (by simpa using (List.isPrefixOf_iff_prefix.mp hp).length_le))
      rw [Option.some.injEq, Prod.mk.injEq] at h
      obtain ⟨h1, h2⟩ := h
      simp [← h1, ← h2, hsep]
    · exact absurd h (by simp)
  | cons c cs ih =>
    simp only [splitFirstList] at h
    split at h
    · rename_i hp
      obtain ⟨t, ht⟩ := List.isPrefixOf_iff_prefix.mp hp
      rw [Option.some.injEq, Prod.mk.injEq] at h
      obtain ⟨h1, h2⟩ := h
      rw [← h1, ← h2, ← ht]
      simp [List.drop_left]
    · rename_i hp
      cases hsp : splitFirstList sep cs with
      | none => rw [hsp] at h; exact absurd h (by simp)
      | some p =>
        obtain ⟨p1, p2⟩ := p
        rw [hsp] at h
        simp only [Option.map_some', Option.some.injEq, Prod.mk.injEq] at h
        obtain ⟨h1, h2⟩ := h
        subst h2
        have hcs : cs = p1 ++ sep ++ p2 := ih hsp
        rw [← h1]
        simp [hcs]

theorem splitFirstList_minimal {sep pre post l : List Char}
    (h : splitFirstList sep l = some (pre, post)) :
    ∀ a b : List Char, l = a ++ sep ++ b → pre.length ≤ a.length := by
  induction l generalizing pre with
  | nil =>
    intro a b _
    simp only [splitFirstList] at h
    split at h
    · rw [Option.some.injEq, Prod.mk.injEq] at h
      simp [← h.1]
    · exact absurd h (by simp)
  | cons c cs ih =>
    intro a b hab
    simp only [splitFirstList] at h
    split at h
    · rw [Option.some.injEq, Prod.mk.injEq] at h
      simp [← h.1]
    · rename_i hp
      cases a with
      | nil =>
        exact absurd (List.isPrefixOf_iff_prefix.mpr ⟨b, by simpa using hab.symm⟩) (by simpa using hp)
      | cons a0 a' =>
        cases hsp : splitFirstList sep cs with
        | none => rw [hsp] at h; exact absurd h (by simp)
        | some p =>
          obtain ⟨p1, p2⟩ := p
          rw [hsp] at h
          simp only [Option.map_some', Option.some.injEq, Prod.mk.injEq] at h
          obtain ⟨h1, h2⟩ := h
          subst h2
          simp only [List.cons_append] at hab
          injection hab with hh htail
          have hrec := ih hsp a' b htail
          simp [← h1, Nat.succ_le_succ hrec]

theorem splitFirstList_isSome_of_append {sep : List Char} (a b : List Char) :
    (splitFirstList sep (a ++ sep ++ b)).isSome := by
  induction a with
  | nil =>
    have hpre : sep.isPrefixOf (sep ++ b) = true :=
      List.isPrefixOf_iff_prefix.mpr ⟨b, rfl⟩
    rw [List.nil_append]
    cases hl : sep ++ b with
    | nil => rw [hl] at hpre; simp [splitFirstList, hpre]
    | cons c cs => rw [hl] at hpre; simp [splitFirstList, List.isPrefixOf_iff_prefix.mp hpre]
  | cons a0 a' ih =>
    simp only [List.cons_append, splitFirstList]
    split
    · simp
    · simpa using ih

theorem splitFirstList_none_iff {sep l : List Char} :
    splitFirstList sep l = none ↔ ∀ a b : List Char, l ≠ a ++ sep ++ b := by
  constructor
  · intro h a b hab
    have := @splitFirstList_isSome_of_append sep a b
    rw [← hab, h] at this
    simp at this
  · intro h
    cases hsp : splitFirstList sep l with
    | none => rfl
    | some p =>
      obtain ⟨p1, p2⟩ := p
      exact absurd (splitFirstList_append hsp) (h p1 p2)

theorem splitFirstList_length {sep pre post l : List Char}
    (h : splitFirstList sep l = some (pre, post)) :
    l.length = pre.length + sep.length + post.length := by
  have := splitFirstList_append h
  simp [this]
  omega

theorem jsIncludes_iff {s sub : String} :
    jsIncludes s sub = true ↔ ∃ a b : List Char, s.data = a ++ sub.data ++ b := by
  constructor
  · intro h
    cases hsp : splitFirstList sub.data s.data with
    | none => rw [jsIncludes, hsp] at h; simp at h
    | some p =>
      obtain ⟨p1, p2⟩ := p
      exact ⟨p1, p2, splitFirstList_append hsp⟩
  · rintro ⟨a, b, hab⟩
    rw [jsIncludes, hab]
    simpa using splitFirstList_isSome_of_append a b

/-! ### Selection-prompt classifier and widget builder (chat.js 222-275) -/

/-- Marker split on by `formatEmailSelectionMessage` (chat.js lines 224, 226). -/
def selectionMarker : String := "Please select one or more by number"

/-- Guard substring of the classifier (chat.js line 224). -/
def multipleContactsFound : String := "Multiple contacts found for"

/-- Classifier branch 1 (chat.js line 224): a message is a selection prompt
exactly when it contains both literal substrings. -/
def isSelectionPrompt (message : String) : Bool :=
  jsIncludes message multipleContactsFound && jsIncludes message selectionMarker

/-- Classifier branch 2 (chat.js line 267): an email-annotated message. -/
def isEmailAnnotated (message : String) : Bool :=
  jsIncludes message "@" && jsIncludes message "(" && jsIncludes message ")"

/-- Parts of `message.split('Please select one or more by number')`
(chat.js line 226). -/
def markerParts (message : String) : List String := jsSplit message selectionMarker

/-- The destructured `introText` (chat.js line 226): element 0 of the split
(the split result is never empty, so the default value is never reached). -/
def introText (message : String) : String := ((markerParts message).get? 0).getD ""

/-- The destructured `optionsText` (chat.js line 226): element 1 of the split.
In JavaScript a missing element would be `undefined`; under the guard of line
224 the marker occurs, so the split has at least two parts and the default
value is never reached. -/
def optionsTextOf (message : String) : String :=
  ((markerParts message).get? 1).getD ""

/-- The option lines, `optionsText.trim().split('\n')` (chat.js line 232). -/
def optionLines (message : String) : List String :=
  jsSplit (jsTrim (optionsTextOf message)) "\n"

/-- One generated option control: `number` is the `data-number` attribute and
`details` the text after the first `". "` of the line.  `details` is `none`
when the line has no `". "` delimiter, in which case the JavaScript
destructuring yields `undefined` (chat.js line 236). -/
structure EmailOption where
  number : String
  details : Option String
deriving DecidableEq

/-- Parse of one option line, `option.split('. ', 2)` followed by the
destructuring `[number, details]` (chat.js line 236).  The JavaScript limit
argument 2 truncates the split to its first two elements. -/
def parseOptionLine (line : String) : EmailOption :=
  let parts := (jsSplit line ". ").take 2
  { number := parts.headD "", details := parts.get? 1 }

/-- Structural content of the widget built by `formatEmailSelectionMessage`
(chat.js lines 226-263): the intro text, one option control per line of the
option block (the forEach of line 235 emits a button for every line), and the
counts of select-all and confirm controls appended after the options (lines
249-258 append each exactly once, shared by the whole option set). -/
structure SelectionWidget where
  intro : String
  options : List EmailOption
  selectAllControls : Nat
  confirmControls : Nat
deriving DecidableEq

/-- Widget builder: the selection branch of `formatEmailSelectionMessage`,
returning the structure of the generated controls; the serialized HTML
produced from the same parse is `formatEmailSelectionMessage` below. -/
def formatEmailSelectionWidget (message : String) : Option SelectionWidget :=
  if isSelectionPrompt message then
    some { intro := introText message
           options := (optionLines message).map parseOptionLine
           selectAllControls := 1
           confirmControls := 1 }
  else none

/-- JavaScript template interpolation of a possibly-undefined value. -/
def jsInterp : Option String → String
  | some s => s
  | none => "undefined"

/-- Template for one option button (chat.js lines 237-245). -/
def optionButtonHtml (number : String) (details : Option String) : String :=
  "\n                    <button class=\"email-option text-left bg-blue-50 hover:bg-blue-100 py-2 px-3 rounded-md transition-colors\" \n                            data-number=\"" ++ number
  ++ "\">\n                        <label class=\"flex items-center cursor-pointer\">\n                            <input type=\"checkbox\" class=\"mr-2 h-4 w-4 text-blue-600 focus:ring-blue-500 rounded\">\n                            <span class=\"font-semibold text-blue-600\">" ++ number
  ++ ".</span> " ++ jsInterp details
  ++ "\n                        </label>\n                    </button>\n                "

/-- Template for the select-all and confirm controls (chat.js lines 249-258). -/
def selectionControlsHtml : String :=
  "\n                <div class=\"mt-2 flex justify-between\">\n                    <button id=\"select-all\" class=\"text-blue-600 text-sm hover:text-blue-800\">\n                        Select All\n                    </button>\n                    <button id=\"submit-selection\" class=\"bg-blue-600 text-white text-sm py-1 px-3 rounded hover:bg-blue-700\">\n                        Confirm Selection\n                    </button>\n                </div>\n            "

/-! ### Model of the email-annotation regex replacement (chat.js 267-271)

The branch replaces, globally, matches of a name followed by a parenthesized
email address (a character class of letters and whitespace captured as group
1; mandatory whitespace; a literal open parenthesis; local-part characters;
an at-sign; domain characters; a literal dot; at least two letters; a literal
close parenthesis) with two styled spans.  For this particular pattern the
greedy-plus-backtracking semantics of the JavaScript engine reduce to the
deterministic scan implemented here, because every character class involved
is disjoint from the literal that must follow its backtrack point. -/

/-- Characters of the regex class of letters and whitespace (group 1). -/
def isNameChar (c : Char) : Bool := c.isAlpha || jsWhitespaceChar c

/-- Characters of the local-part class of the email pattern. -/
def isLocalChar (c : Char) : Bool :=
  c.isAlpha || c.isDigit || c = '.' || c = '_' || c = '%' || c = '+' || c = '-'

/-- Characters of the domain class of the email pattern. -/
def isDomainChar (c : Char) : Bool := c.isAlpha || c.isDigit || c = '.' || c = '-'

/-- Decomposition of the domain run demanded by the tail of the pattern:
domain characters, a literal dot, and at least two letters running to the end
of the run.  The backtracking over the greedy domain class selects the
rightmost qualifying dot; since the suffix after a qualifying dot is all
letters, at most one dot qualifies. -/
def findTldSplit : List Char → Option (List Char × List Char)
  | [] => none
  | c :: cs =>
    match findTldSplit cs with
    | some p => some (c :: p.1, p.2)
    | none =>
      if c = '.' && cs.all Char.isAlpha && decide (2 ≤ cs.length) then some ([], cs)
      else none

/-- Attempt to match the email pattern at the head of the input, returning
the two capture groups (the name without the whitespace consumed by the
mandatory whitespace atom, and the full email) and the input remaining after
the closing parenthesis. -/
def matchEmailAt (l : List Char) : Option (List Char × List Char × List Char) :=
  let r := l.takeWhile isNameChar
  if decide (2 ≤ r.length) && jsWhitespaceChar (r.getLastD ' ') then
    match l.dropWhile isNameChar with
    | '(' :: rest2 =>
      let lp := rest2.takeWhile isLocalChar
      if lp.isEmpty then none
      else
        match rest2.dropWhile isLocalChar with
        | '@' :: rest4 =>
          let d := rest4.takeWhile isDomainChar
          (match rest4.dropWhile isDomainChar with
           | ')' :: rest6 =>
             (match findTldSplit d with
              | some (dom, tld) =>
                if dom.isEmpty then none
                else some (r.dropLast, lp ++ '@' :: (dom ++ '.' :: tld), rest6)
              | none => none)
           | _ => none)
        | _ => none
    | _ => none
  else none

/-- Replacement template of chat.js line 270, with the two capture groups
substituted for the dollar references. -/
def emailReplacement (name email : List Char) : List Char :=
  "<span class=\"text-blue-700 font-medium\">".data ++ name
    ++ "</span> <span class=\"text-blue-500 text-sm\">(".data ++ email
    ++ ")</span>".data

/-- Left-to-right global replacement scan; the fuel is a termination device,
sufficient because every step consumes at least one input character. -/
def replaceEmailsAux : Nat → List Char → List Char
  | 0, l => l
  | _ + 1, [] => []
  | fuel + 1, c :: cs =>
    match matchEmailAt (c :: cs) with
    | some (name, email, rest) => emailReplacement name email ++ replaceEmailsAux fuel rest
    | none => c :: replaceEmailsAux fuel cs

/-- Model of the global regex replacement of chat.js lines 269-270. -/
def replaceEmails (s : String) : String :=
  ⟨replaceEmailsAux s.data.length s.data⟩

/-- Model of `formatEmailSelectionMessage` (chat.js lines 222-275): the
serialized HTML handed back to `addBotMessage`. -/
def formatEmailSelectionMessage (message : String) : String :=
  if isSelectionPrompt message then
    let formattedIntro := "<p class=\"mb-2\">" ++ introText message
      ++ " Please select one or more by number (e.g., \"1\", \"2\", \"1 and 2\", or \"all\"):</p>"
    let formattedOptions := "<div class=\"grid gap-2 mt-2\">"
      ++ String.join ((optionLines message).map
           (fun line => optionButtonHtml (parseOptionLine line).number (parseOptionLine line).details))
      ++ selectionControlsHtml ++ "</div>"
    formattedIntro ++ formattedOptions
  else if isEmailAnnotated message then
    replaceEmails message
  else
    escapeHtml message

/-! ### Selection state tracker (chat.js 278-362) and transcript events

The document-level listener of `setupEmailOptionListeners` mutates a single
shared `Set` named `selectedOptions`.  The transcript-level events that
change which option controls exist are also modelled: rendering a new prompt
appends option controls, and the reset handler clears the transcript with
`chatContainer.innerHTML = ''` (chat.js line 58) without touching
`selectedOptions`. -/

/-- One rendered option control in the transcript: its `data-number`
attribute and the checked state of its checkbox. -/
structure RenderedOption where
  number : String
  checked : Bool
deriving DecidableEq

/-- JavaScript `Set` of strings as its insertion-ordered element list:
`add` appends a new element at the end and leaves the set unchanged when the
element is already present; `delete` removes the element. -/
def setAdd (l : List String) (x : String) : List String :=
  if x ∈ l then l else l ++ [x]

/-- JavaScript `Set.delete` on the insertion-ordered element list. -/
def setDelete (l : List String) (x : String) : List String := l.erase x

/-- Model of `Array.from(selectedOptions).join(' and ')` (chat.js line 329). -/
def joinAnd : List String → String
  | [] => ""
  | [x] => x
  | x :: xs => x ++ " and " ++ joinAnd xs

/-- Observable client state for the selection flow: the rendered option
controls in transcript order across all widgets (matching the document-wide
`querySelectorAll` of chat.js line 302), the shared selection set, the
locally rendered user turns, the messages submitted to the backend through
`sendMessage`, and the alerts raised. -/
structure ChatState where
  rendered : List RenderedOption
  selected : List String
  userTurns : List String
  sentMessages : List String
  alerts : List String
deriving DecidableEq

/-- State at page load: no widgets, empty selection set. -/
def initState : ChatState :=
  { rendered := [], selected := [], userTurns := [], sentMessages := [], alerts := [] }

/-- Events delegated by the document-level click listener (chat.js lines
283-361), plus the two transcript-level events that change which option
controls exist. -/
inductive Event where
  /-- Click on the checkbox of the i-th rendered option control (chat.js
  lines 285-298); the browser flips the checked state before the handler
  reads it.  The direct-click path (lines 344-360) toggles the same checkbox
  and updates the set identically, so it is covered by this event. -/
  | toggleCheckbox (i : Nat)
  /-- Click on the select-all button (chat.js lines 301-318). -/
  | selectAll
  /-- Click on the confirm button (chat.js lines 321-342). -/
  | confirm
  /-- A new selection prompt is rendered, appending option controls with the
  given identifiers, all initially unchecked. -/
  | newPrompt (ids : List String)
  /-- The reset handler clears the transcript (chat.js line 58); it does not
  modify `selectedOptions`. -/
  | reset
deriving DecidableEq

/-- Text of the alert of chat.js line 324. -/
def validationAlert : String := "Please select at least one contact."

/-- One step of the delegated event handlers.  In the select-all case the
forEach of chat.js lines 305-314 both flips each checkbox and updates the
set per checkbox; since the per-element operations touch disjoint data, the
loop is rendered as a map over the checkboxes and a fold over the set. -/
def step (s : ChatState) : Event → ChatState
  | .toggleCheckbox i =>
    match s.rendered.get? i with
    | none => s
    | some opt =>
      let nowChecked := !opt.checked
      { s with
        rendered := s.rendered.set i { opt with checked := nowChecked }
        selected := if nowChecked then setAdd s.selected opt.number
                    else setDelete s.selected opt.number }
  | .selectAll =>
    let allChecked := s.rendered.all (fun o => o.checked)
    { s with
      rendered := s.rendered.map (fun o => { o with checked := !allChecked })
      selected :=
        if allChecked then s.rendered.foldl (fun acc o => setDelete acc o.number) s.selected
        else s.rendered.foldl (fun acc o => setAdd acc o.number) s.selected }
  | .confirm =>
    if s.selected.isEmpty then
      { s with alerts := s.alerts ++ [validationAlert] }
    else
      let selectionText := joinAnd s.selected
      { s with
        userTurns := s.userTurns ++ [selectionText]
        sentMessages := s.sentMessages ++ [selectionText]
        selected := [] }
  | .newPrompt ids =>
    { s with rendered := s.rendered ++ ids.map (fun n => { number := n, checked := false }) }
  | .reset => { s with rendered := [] }

/-- Run a sequence of events. -/
def run (s : ChatState) (es : List Event) : ChatState := es.foldl step s

/-! ### Transport model for sendMessage (chat.js 74-107) -/

/-- Fields of the parsed JSON body read by `sendMessage` (chat.js 83-94).  A
`response` field that is absent or not a string makes
`formatEmailSelectionMessage` throw a TypeError inside the `.then` callback
(calling `.includes` on a non-string), which the trailing `.catch` handles,
so both are modelled as `none`. -/
structure MsgData where
  response : Option String
  entities : List (String × List String)
  complete : Bool
deriving DecidableEq

/-- Outcome of the `fetch` call as observed by the code: a network error
rejects the fetch promise; otherwise every HTTP response resolves it (the
status code is carried here but chat.js never inspects it), and
`response.json()` rejects exactly when the body is not valid JSON (`none`). -/
inductive FetchOutcome where
  | netError
  | httpResponse (status : Nat) (body : Option MsgData)
deriving DecidableEq

/-- Client view affected by one `sendMessage` round trip: the pending typing
indicator, the rendered bot turns (the raw text handed to `addBotMessage`),
and the entity panel content (`none` while hidden). -/
structure ClientView where
  typingIndicator : Bool
  botTurns : List String
  entityPanel : Option (List (String × List String) × Bool)
deriving DecidableEq

/-- Text of the apology turn of chat.js line 105. -/
def apologyMessage : String :=
  "Sorry, there was an error processing your message. Please try again."

/-- Model of `updateEntityPanel` (chat.js 146-219): an absent or empty
entities mapping leaves the panel untouched; otherwise the panel is replaced
by the groups with non-empty value lists plus the completion flag. -/
def updateEntityPanel (panel : Option (List (String × List String) × Bool))
    (entities : List (String × List String)) (complete : Bool) :
    Option (List (String × List String) × Bool) :=
  if entities.isEmpty then panel
  else some (entities.filter (fun g => !g.2.isEmpty), complete)

/-- Model of the promise chain of `sendMessage` (chat.js 74-107) applied to
the fetch outcome: the `.catch` branch removes the typing indicator and
renders the fixed apology; the `.then` branch removes the indicator, renders
`data.response` and refreshes the entity panel; a TypeError thrown on a
missing `response` string falls through to `.catch` after the indicator was
already removed, so only the apology turn is appended. -/
def handleMessageResult (v : ClientView) : FetchOutcome → ClientView
  | .netError =>
    { v with typingIndicator := false, botTurns := v.botTurns ++ [apologyMessage] }
  | .httpResponse _ none =>
    { v with typingIndicator := false, botTurns := v.botTurns ++ [apologyMessage] }
  | .httpResponse _ (some data) =>
    match data.response with
    | none =>
      { v with typingIndicator := false, botTurns := v.botTurns ++ [apologyMessage] }
    | some text =>
      { v with
        typingIndicator := false
        botTurns := v.botTurns ++ [text]
        entityPanel := updateEntityPanel v.entityPanel data.entities data.complete }

/-- Modelled from the spec wording of claim C6 ("everything after it becoming
the option block"): the text after the first occurrence of the marker, to be
compared against the `optionsText` actually computed by the code. -/
def optionBlockSpec (message : String) : Option String :=
  (splitFirstList selectionMarker.data message.data).map (fun p => (⟨p.2⟩ : String))

/-! ### Helper lemmas about the JavaScript Set model -/

theorem mem_setAdd_iff {l : List String} {x y : String} :
    x ∈ setAdd l y ↔ x ∈ l ∨ x = y := by
  unfold setAdd
  split
  · rename_i hy
    constructor
    · exact Or.inl
    · rintro (h | rfl)
      · exact h
      · exact hy
  · simp

theorem mem_setAdd_self (l : List String) (y : String) : y ∈ setAdd l y := by
  unfold setAdd
  split
  · assumption
  · simp

theorem setAdd_nodup {l : List String} {y : String} (h : l.Nodup) :
    (setAdd l y).Nodup := by
  unfold setAdd
  split
  · exact h
  · rename_i hy
    simpa [List.nodup_append] using ⟨h, hy⟩

theorem mem_foldl_setAdd_of_mem_acc {l : List RenderedOption} {acc : List String}
    {x : String} (h : x ∈ acc) :
    x ∈ l.foldl (fun a o => setAdd a o.number) acc := by
  induction l generalizing acc with
  | nil => simpa using h
  | cons o2 l ih => exact ih (mem_setAdd_iff.mpr (Or.inl h))

theorem number_mem_foldl_setAdd {l : List RenderedOption} {acc : List String}
    {o : RenderedOption} (h : o ∈ l) :
    o.number ∈ l.foldl (fun a o => setAdd a o.number) acc := by
  induction l generalizing acc with
  | nil => cases h
  | cons o2 l ih =>
    rcases List.mem_cons.mp h with rfl | h2
    · simp only [List.foldl_cons]
      exact mem_foldl_setAdd_of_mem_acc (mem_setAdd_self acc o.number)
    · exact ih h2

theorem mem_of_mem_foldl_setAdd {l : List RenderedOption} {acc : List String}
    {x : String} (h : x ∈ l.foldl (fun a o => setAdd a o.number) acc) :
    x ∈ acc ∨ ∃ o ∈ l, x = o.number := by
  induction l generalizing acc with
  | nil => exact Or.inl (by simpa using h)
  | cons o2 l ih =>
    rcases ih h with h2 | h2
    · rcases mem_setAdd_iff.mp h2 with h3 | h3
      · exact Or.inl h3
      · exact Or.inr ⟨o2, by simp, h3⟩
    · obtain ⟨o, ho, hx⟩ := h2
      exact Or.inr ⟨o, by simp [ho], hx⟩

theorem nodup_foldl_setAdd {l : List RenderedOption} {acc : List String}
    (h : acc.Nodup) : (l.foldl (fun a o => setAdd a o.number) acc).Nodup := by
  induction l generalizing acc with
  | nil => simpa using h
  | cons o2 l ih => exact ih (setAdd_nodup h)

theorem mem_of_mem_foldl_setDelete {l : List RenderedOption} {acc : List String}
    {x : String} (h : x ∈ l.foldl (fun a o => setDelete a o.number) acc) :
    x ∈ acc := by
  induction l generalizing acc with
  | nil => simpa using h
  | cons o2 l ih => exact List.mem_of_mem_erase (ih h)

theorem not_mem_foldl_setDelete {l : List RenderedOption} {acc : List String}
    {o : RenderedOption} (hacc : acc.Nodup) (h : o ∈ l) :
    o.number ∉ l.foldl (fun a o => setDelete a o.number) acc := by
  induction l generalizing acc with
  | nil => cases h
  | cons o2 l ih =>
    rcases List.mem_cons.mp h with rfl | h2
    · intro hmem
      simp only [List.foldl_cons] at hmem
      have h3 := mem_of_mem_foldl_setDelete hmem
      exact ((List.Nodup.mem_erase_iff hacc).mp h3).1 rfl
    · exact ih (hacc.erase _) h2

theorem map_number_set {l : List RenderedOption} {i : Nat} {a : RenderedOption}
    {b : Bool} (h : l.get? i = some a) :
    (l.set i { a with checked := b }).map (fun o => o.number) =
      l.map (fun o => o.number) := by
  induction l generalizing i with
  | nil => simp at h
  | cons o2 l ih =>
    cases i with
    | zero =>
      have : o2 = a := by simpa using h
      subst this
      simp [List.set]
    | succ i =>
      have h2 : l.get? i = some a := by simpa using h
      simp [List.set, ih h2]

theorem map_uncheck_eq_self {l : List RenderedOption}
    (h : ∀ o ∈ l, o.checked = false) :
    l.map (fun o => { o with checked := false }) = l := by
  induction l with
  | nil => rfl
  | cons o2 l ih =>
    have ho := h o2 (by simp)
    have he : ({ o2 with checked := false } : RenderedOption) = o2 := by
      cases o2
      simp_all
    simp only [List.map_cons, he, ih (fun o' ho' => h o' (by simp [ho']))]

/-! ### Claims C3, C4, C10: the confirm action -/

/-- Claim C3: invoking confirm while the selection set is empty surfaces the
validation alert and performs no further action: nothing is submitted to the
backend, no user turn is rendered, and the selection set is unchanged
(chat.js lines 321-326: the handler alerts and returns before touching
anything else). -/
theorem c3_confirm_empty_validates_and_changes_nothing :
    ∀ s : ChatState, s.selected = [] →
      (step s Event.confirm).sentMessages = s.sentMessages ∧
      (step s Event.confirm).userTurns = s.userTurns ∧
      (step s Event.confirm).selected = s.selected ∧
      (step s Event.confirm).rendered = s.rendered ∧
      (step s Event.confirm).alerts = s.alerts ++ [validationAlert] := by
  intro s h
  simp [step, h]

/-- Witness for C3 at the concrete state reached after rendering a fresh
two-option prompt. -/
theorem c3_confirm_empty_witness :
    (run initState [Event.newPrompt ["1", "2"]]).selected = [] ∧
    (step (run initState [Event.newPrompt ["1", "2"]]) Event.confirm).sentMessages
      = (run initState [Event.newPrompt ["1", "2"]]).sentMessages ∧
    (step (run initState [Event.newPrompt ["1", "2"]]) Event.confirm).alerts
      = (run initState [Event.newPrompt ["1", "2"]]).alerts ++ [validationAlert] := by
  have h := c3_confirm_empty_validates_and_changes_nothing
    (run initState [Event.newPrompt ["1", "2"]]) (by decide)
  exact ⟨by decide, h.1, h.2.2.2.2⟩

/-- Claim C4: invoking confirm on a non-empty selection set joins the member
ids with the literal word "and", renders that string locally as a user turn,
submits it to the backend, and clears the set (chat.js lines 328-338). -/
theorem c4_confirm_nonempty_submits_join :
    ∀ s : ChatState, s.selected ≠ [] →
      step s Event.confirm =
        { s with
          userTurns := s.userTurns ++ [joinAnd s.selected]
          sentMessages := s.sentMessages ++ [joinAnd s.selected]
          selected := [] } := by
  intro s h
  have he : s.selected.isEmpty = false := by
    cases hs : s.selected with
    | nil => exact absurd hs h
    | cons a l => rfl
  simp [step, he]

/-- Witness for C4: after checking options 1 and 2 of a two-option prompt,
confirm submits exactly the string "1 and 2" and leaves the set empty. -/
theorem c4_confirm_nonempty_witness :
    (run initState [Event.newPrompt ["1", "2"], Event.toggleCheckbox 0,
        Event.toggleCheckbox 1]).selected ≠ [] ∧
    (step (run initState [Event.newPrompt ["1", "2"], Event.toggleCheckbox 0,
        Event.toggleCheckbox 1]) Event.confirm).sentMessages = ["1 and 2"] ∧
    (step (run initState [Event.newPrompt ["1", "2"], Event.toggleCheckbox 0,
        Event.toggleCheckbox 1]) Event.confirm).userTurns = ["1 and 2"] ∧
    (step (run initState [Event.newPrompt ["1", "2"], Event.toggleCheckbox 0,
        Event.toggleCheckbox 1]) Event.confirm).selected = [] := by
  have h := c4_confirm_nonempty_submits_join
    (run initState [Event.newPrompt ["1", "2"], Event.toggleCheckbox 0,
      Event.toggleCheckbox 1]) (by decide)
  rw [h]
  exact ⟨by decide, by decide, by decide, by decide⟩

/-- Claim C10: the confirm submission lists the ids in the insertion order of
the JavaScript Set, not in numeric order or prompt order: toggling on a
not-yet-selected option appends its id at the end of the set (re-adding an
already-present id leaves its position unchanged, which is exactly the
JavaScript Set behaviour the model implements), and in particular checking
option 2 before option 1 makes confirm submit "2 and 1". -/
theorem c10_confirm_submits_insertion_order :
    (∀ (s : ChatState) (i : Nat) (opt : RenderedOption),
        s.rendered.get? i = some opt → opt.checked = false →
        opt.number ∉ s.selected →
        (step s (Event.toggleCheckbox i)).selected = s.selected ++ [opt.number]) ∧
    (run initState [Event.newPrompt ["1", "2"], Event.toggleCheckbox 1,
      Event.toggleCheckbox 0, Event.confirm]).sentMessages = ["2 and 1"] := by
  constructor
  · intro s i opt hget hch hnm
    have hget2 : s.rendered[i]? = some opt := by
      rw [← List.get?_eq_getElem?]; exact hget
    simp [step, hget2, hch, setAdd, hnm]
  · decide

/-- Witness for C10 at the concrete two-option prompt, toggling option 2
while the set is empty. -/
theorem c10_confirm_submits_insertion_order_witness :
    (run initState [Event.newPrompt ["1", "2"]]).rendered.get? 1
      = some { number := "2", checked := false } ∧
    (step (run initState [Event.newPrompt ["1", "2"]])
        (Event.toggleCheckbox 1)).selected = [] ++ ["2"] := by
  have h := c10_confirm_submits_insertion_order
  refine ⟨by decide, ?_⟩
  have h2 := h.1 (run initState [Event.newPrompt ["1", "2"]]) 1
    { number := "2", checked := false } (by decide) (by decide) (by decide)
  simpa using h2

/-! ### Claim C5: the select-all toggle -/

/-- Characterization of the select-all handler when not every rendered
checkbox is checked (chat.js lines 301-314, branch that checks all). -/
theorem step_selectAll_of_not_all {s : ChatState}
    (h : s.rendered.all (fun o => o.checked) = false) :
    step s Event.selectAll =
      { s with
        rendered := s.rendered.map (fun o => { o with checked := true })
        selected := s.rendered.foldl (fun a o => setAdd a o.number) s.selected } := by
  simp [step, h]

/-- Characterization of the select-all handler when every rendered checkbox
is checked (chat.js lines 301-314, branch that unchecks all). -/
theorem step_selectAll_of_all {s : ChatState}
    (h : s.rendered.all (fun o => o.checked) = true) :
    step s Event.selectAll =
      { s with
        rendered := s.rendered.map (fun o => { o with checked := false })
        selected := s.rendered.foldl (fun a o => setDelete a o.number) s.selected } := by
  simp [step, h]

/-- Claim C5: when not every rendered option checkbox is checked, select-all
checks every rendered option and inserts every option id into the selection
set; when all are checked, it unchecks every option and removes every id
(removal stated under the no-duplicates property that the set model always
maintains); and two consecutive invocations starting from zero checked
options and an empty set restore the starting rendered state and leave the
set empty (chat.js lines 301-317). -/
theorem c5_select_all_toggle :
    ∀ s : ChatState,
      (s.rendered.all (fun o => o.checked) = false →
        ((∀ o ∈ (step s Event.selectAll).rendered, o.checked = true) ∧
         ∀ o ∈ s.rendered, o.number ∈ (step s Event.selectAll).selected)) ∧
      (s.rendered.all (fun o => o.checked) = true → s.selected.Nodup →
        ((∀ o ∈ (step s Event.selectAll).rendered, o.checked = false) ∧
         ∀ o ∈ s.rendered, o.number ∉ (step s Event.selectAll).selected)) ∧
      ((∀ o ∈ s.rendered, o.checked = false) → s.selected = [] →
        ((run s [Event.selectAll, Event.selectAll]).rendered = s.rendered ∧
         (run s [Event.selectAll, Event.selectAll]).selected = [])) := by
  intro s
  refine ⟨?_, ?_, ?_⟩
  · intro hall
    rw [step_selectAll_of_not_all hall]
    constructor
    · intro o ho
      simp only [List.mem_map] at ho
      obtain ⟨o2, _, rfl⟩ := ho
      rfl
    · intro o ho
      exact number_mem_foldl_setAdd ho
  · intro hall hnd
    rw [step_selectAll_of_all hall]
    constructor
    · intro o ho
      simp only [List.mem_map] at ho
      obtain ⟨o2, _, rfl⟩ := ho
      rfl
    · intro o ho
      exact not_mem_foldl_setDelete hnd ho
  · intro hub hsel
    cases hr : s.rendered with
    | nil =>
      have hall : s.rendered.all (fun o => o.checked) = true := by
        rw [hr]
        rfl
      have h1 : step s Event.selectAll = s := by
        rw [step_selectAll_of_all hall, hr]
        simp only [List.map_nil, List.foldl_nil]
        rw [← hr]
      have hrun : run s [Event.selectAll, Event.selectAll] = s := by
        show step (step s Event.selectAll) Event.selectAll = s
        rw [h1, h1]
      rw [hrun]
      exact ⟨hr, hsel⟩
    | cons r rs =>
      have hrmem : r ∈ s.rendered := by
        rw [hr]
        exact List.mem_cons_self r rs
      have hallf : s.rendered.all (fun o => o.checked) = false := by
        rw [hr]
        simp [List.all_cons, hub r hrmem]
      have h1 := step_selectAll_of_not_all hallf
      have hs1r : (step s Event.selectAll).rendered
          = s.rendered.map (fun o => { o with checked := true }) := by rw [h1]
      have hs1s : (step s Event.selectAll).selected
          = s.rendered.foldl (fun a o => setAdd a o.number) s.selected := by rw [h1]
      have halls : (step s Event.selectAll).rendered.all (fun o => o.checked) = true := by
        rw [hs1r, List.all_map]
        apply List.all_eq_true.mpr
        intro o _
        rfl
      have h2 := step_selectAll_of_all halls
      have hrun : run s [Event.selectAll, Event.selectAll]
          = step (step s Event.selectAll) Event.selectAll := rfl
      constructor
      · rw [hrun, h2, ← hr]
        show (step s Event.selectAll).rendered.map (fun o => { o with checked := false })
            = s.rendered
        rw [hs1r, List.map_map]
        have hcomp : ((fun (o : RenderedOption) => { o with checked := false }) ∘
            (fun (o : RenderedOption) => { o with checked := true }))
            = (fun (o : RenderedOption) => { o with checked := false }) := by
          funext o
          rfl
        rw [hcomp]
        exact map_uncheck_eq_self hub
      · rw [hrun, h2]
        show (step s Event.selectAll).rendered.foldl (fun a o => setDelete a o.number)
            (step s Event.selectAll).selected = []
        apply List.eq_nil_iff_forall_not_mem.mpr
        intro x hx
        have hx1 : x ∈ (step s Event.selectAll).selected := mem_of_mem_foldl_setDelete hx
        have hx2 : x ∈ s.selected ∨ ∃ o ∈ s.rendered, x = o.number := by
          rw [hs1s] at hx1
          exact mem_of_mem_foldl_setAdd hx1
        rcases hx2 with hx3 | ⟨o, ho, rfl⟩
        · rw [hsel] at hx3
          cases hx3
        · have hmem : ({ o with checked := true } : RenderedOption)
              ∈ (step s Event.selectAll).rendered := by
            rw [hs1r]
            exact List.mem_map_of_mem _ ho
          have hnd1 : (step s Event.selectAll).selected.Nodup := by
            rw [hs1s, hsel]
            exact nodup_foldl_setAdd List.nodup_nil
          exact not_mem_foldl_setDelete hnd1 hmem hx

/-- Witness for C5 at a fresh two-option prompt: part one at the initial
all-unchecked state, part two at the state after one select-all, and the
toggle pairing from the all-unchecked state. -/
theorem c5_select_all_toggle_witness :
    ((run initState [Event.newPrompt ["1", "2"]]).rendered.all (fun o => o.checked) = false) ∧
    (∀ o ∈ (step (run initState [Event.newPrompt ["1", "2"]]) Event.selectAll).rendered,
        o.checked = true) ∧
    (∀ o ∈ (run initState [Event.newPrompt ["1", "2"]]).rendered,
        o.number ∈ (step (run initState [Event.newPrompt ["1", "2"]]) Event.selectAll).selected) ∧
    (∀ o ∈ (step (run initState [Event.newPrompt ["1", "2"]]) Event.selectAll).rendered,
        o.number ∉ (step (step (run initState [Event.newPrompt ["1", "2"]]) Event.selectAll)
          Event.selectAll).selected) ∧
    ((run (run initState [Event.newPrompt ["1", "2"]]) [Event.selectAll, Event.selectAll]).rendered
        = (run initState [Event.newPrompt ["1", "2"]]).rendered ∧
     (run (run initState [Event.newPrompt ["1", "2"]])
        [Event.selectAll, Event.selectAll]).selected = []) := by
  have h := c5_select_all_toggle (run initState [Event.newPrompt ["1", "2"]])
  have h2 := c5_select_all_toggle (step (run initState [Event.newPrompt ["1", "2"]])
    Event.selectAll)
  exact ⟨by decide, (h.1 (by decide)).1, (h.1 (by decide)).2,
    (h2.2.1 (by decide) (by decide)).2, h.2.2 (by decide) (by decide)⟩

/-! ### Claim C7: the selection-set subset invariant -/

/-- Subset property stated by claim C7: every member of the selection set is
the identifier of some currently-rendered option control. -/
def SelectionInvariant (s : ChatState) : Prop :=
  ∀ x ∈ s.selected, x ∈ s.rendered.map (fun o => o.number)

instance decidableSelectionInvariant (s : ChatState) : Decidable (SelectionInvariant s) :=
  List.decidableBAll _ s.selected

/-- Characterization of the toggle handler when the index is out of range. -/
theorem step_toggle_of_get_none {s : ChatState} {i : Nat}
    (h : s.rendered.get? i = none) : step s (Event.toggleCheckbox i) = s := by
  have h2 : s.rendered[i]? = none := by
    rw [← List.get?_eq_getElem?]
    exact h
  simp [step, h2]

/-- Characterization of the toggle handler on an existing option control
(chat.js lines 285-298). -/
theorem step_toggle_of_get_some {s : ChatState} {i : Nat} {opt : RenderedOption}
    (h : s.rendered.get? i = some opt) :
    step s (Event.toggleCheckbox i) =
      { s with
        rendered := s.rendered.set i { opt with checked := !opt.checked }
        selected := if !opt.checked then setAdd s.selected opt.number
                    else setDelete s.selected opt.number } := by
  have h2 : s.rendered[i]? = some opt := by
    rw [← List.get?_eq_getElem?]
    exact h
  simp [step, h2]

/-- After any confirm action the selection set is empty: the non-empty branch
clears it and the empty branch leaves it empty (chat.js lines 321-338). -/
theorem step_confirm_selected_nil (s : ChatState) :
    (step s Event.confirm).selected = [] := by
  by_cases h : s.selected.isEmpty
  · have he : s.selected = [] := by
      cases hs : s.selected with
      | nil => rfl
      | cons a l => rw [hs] at h; simp at h
    simp [step, h, he]
  · simp [step, h]

/-- Claim C7 (counterexample): the subset half of the claimed invariant is
violated by the reset event, which the claim includes in the event sequence:
toggling option 1 on and then resetting leaves "1" in the selection set
while no option control is rendered at all (chat.js line 58 clears the
transcript without clearing selectedOptions). -/
theorem c7_invariant_counterexample :
    ¬ SelectionInvariant (run initState
        [Event.newPrompt ["1"], Event.toggleCheckbox 0, Event.reset]) ∧
    (run initState [Event.newPrompt ["1"], Event.toggleCheckbox 0,
        Event.reset]).selected = ["1"] ∧
    (run initState [Event.newPrompt ["1"], Event.toggleCheckbox 0,
        Event.reset]).rendered = [] := by
  decide

/-- Claim C7 (amended): the subset invariant is preserved by every event
other than reset (checkbox toggles, select-all, confirm, new prompts), and
immediately after any confirm action the selection set is empty; the reset
event breaks the subset half because it clears the rendered transcript
without clearing the set. -/
theorem c7_invariant_amended :
    (∀ (s : ChatState) (e : Event), e ≠ Event.reset →
        SelectionInvariant s → SelectionInvariant (step s e)) ∧
    (∀ s : ChatState, (step s Event.confirm).selected = []) := by
  constructor
  · intro s e hne hinv
    cases e with
    | toggleCheckbox i =>
      cases hget : s.rendered.get? i with
      | none =>
        rw [step_toggle_of_get_none hget]
        exact hinv
      | some opt =>
        intro x hx
        rw [step_toggle_of_get_some hget] at hx ⊢
        show x ∈ (s.rendered.set i { opt with checked := !opt.checked }).map
          (fun o => o.number)
        rw [map_number_set hget]
        by_cases hch : opt.checked
        · simp only [hch, Bool.not_true, Bool.false_eq_true, if_false] at hx
          exact hinv x (List.mem_of_mem_erase hx)
        · simp only [Bool.not_eq_true] at hch
          simp only [hch, Bool.not_false, if_true] at hx
          rcases mem_setAdd_iff.mp hx with h3 | rfl
          · exact hinv x h3
          · exact List.mem_map_of_mem _ (List.get?_mem hget)
    | selectAll =>
      by_cases hall : s.rendered.all (fun o => o.checked) = true
      · intro x hx
        rw [step_selectAll_of_all hall] at hx ⊢
        show x ∈ (s.rendered.map (fun o => { o with checked := false })).map
          (fun o => o.number)
        rw [List.map_map]
        have hx1 : x ∈ s.selected := mem_of_mem_foldl_setDelete hx
        have := hinv x hx1
        simpa using this
      · have hallf : s.rendered.all (fun o => o.checked) = false :=
          Bool.eq_false_iff.mpr hall
        intro x hx
        rw [step_selectAll_of_not_all hallf] at hx ⊢
        show x ∈ (s.rendered.map (fun o => { o with checked := true })).map
          (fun o => o.number)
        rw [List.map_map]
        rcases mem_of_mem_foldl_setAdd hx with h3 | ⟨o, ho, rfl⟩
        · have := hinv x h3
          simpa using this
        · simpa using List.mem_map_of_mem (fun o => o.number) ho
    | confirm =>
      by_cases hemp : s.selected.isEmpty
      · intro x hx
        simp only [step, hemp, if_true] at hx ⊢
        exact hinv x hx
      · intro x hx
        simp only [step, hemp, if_false] at hx
        simp at hx
    | newPrompt ids =>
      intro x hx
      simp only [step] at hx ⊢
      have := hinv x hx
      rw [List.map_append]
      exact List.mem_append_left _ this
    | reset => exact absurd rfl hne
  · exact step_confirm_selected_nil

/-- Witness for the amended C7: the invariant is preserved across a toggle on
a fresh one-option prompt, and confirm empties the set there. -/
theorem c7_invariant_amended_witness :
    (Event.toggleCheckbox 0 ≠ Event.reset) ∧
    SelectionInvariant (run initState [Event.newPrompt ["1"]]) ∧
    SelectionInvariant (step (run initState [Event.newPrompt ["1"]])
      (Event.toggleCheckbox 0)) ∧
    (step (run initState [Event.newPrompt ["1"]]) Event.confirm).selected = [] := by
  have h := c7_invariant_amended
  exact ⟨by decide, by decide, h.1 _ _ (by decide) (by decide), h.2 _⟩

/-! ### Claim C8: transport failure handling -/

/-- Claim C8 (counterexample): the code never inspects the HTTP status, so a
non-2xx response carrying a valid JSON body with a string response field is
rendered as a normal bot turn and no apology appears — contradicting the
claim that every non-2xx status is recovered with the fixed apology. -/
theorem c8_transport_counterexample :
    handleMessageResult { typingIndicator := true, botTurns := [], entityPanel := none }
        (FetchOutcome.httpResponse 500
          (some { response := some "Internal server error occurred",
                  entities := [], complete := false }))
      = { typingIndicator := false, botTurns := ["Internal server error occurred"],
          entityPanel := none } ∧
    apologyMessage ∉ (handleMessageResult
        { typingIndicator := true, botTurns := [], entityPanel := none }
        (FetchOutcome.httpResponse 500
          (some { response := some "Internal server error occurred",
                  entities := [], complete := false }))).botTurns := by
  decide

/-- Claim C8 (amended): on a network error, on a body that is not valid JSON,
or on a body whose response field is not a string, the client recovers
locally: the typing indicator is removed, the fixed apology is rendered, and
nothing else changes (no retry, entity panel untouched); the HTTP status is
never inspected, so the handling of any response is identical to that of a
200 response with the same body. -/
theorem c8_transport_amended :
    (∀ (v : ClientView) (r : FetchOutcome),
        (r = FetchOutcome.netError ∨
         (∃ st, r = FetchOutcome.httpResponse st none) ∨
         (∃ st d, r = FetchOutcome.httpResponse st (some d) ∧ d.response = none)) →
        handleMessageResult v r =
          { v with typingIndicator := false,
                   botTurns := v.botTurns ++ [apologyMessage] }) ∧
    (∀ (v : ClientView) (st : Nat) (body : Option MsgData),
        handleMessageResult v (FetchOutcome.httpResponse st body) =
          handleMessageResult v (FetchOutcome.httpResponse 200 body)) := by
  constructor
  · rintro v r (rfl | ⟨st, rfl⟩ | ⟨st, d, rfl, hresp⟩)
    · rfl
    · rfl
    · simp [handleMessageResult, hresp]
  · intro v st body
    cases body with
    | none => rfl
    | some d =>
      cases hd : d.response with
      | none => simp [handleMessageResult, hd]
      | some text => simp [handleMessageResult, hd]

/-- Witness for the amended C8 at concrete views and outcomes. -/
theorem c8_transport_amended_witness :
    handleMessageResult { typingIndicator := true, botTurns := [], entityPanel := none }
        FetchOutcome.netError
      = { typingIndicator := false, botTurns := [apologyMessage], entityPanel := none } ∧
    handleMessageResult { typingIndicator := true, botTurns := [], entityPanel := none }
        (FetchOutcome.httpResponse 500 none)
      = handleMessageResult { typingIndicator := true, botTurns := [], entityPanel := none }
        (FetchOutcome.httpResponse 200 none) := by
  have h := c8_transport_amended
  constructor
  · have h1 := h.1 { typingIndicator := true, botTurns := [], entityPanel := none }
      FetchOutcome.netError (Or.inl rfl)
    simpa using h1
  · exact h.2 { typingIndicator := true, botTurns := [], entityPanel := none } 500 none

/-! ### Claim C9: HTML escaping of rendered message text -/

/-- Claim C9 (counterexample): the selection branch of the renderer inserts
the message text into the generated HTML without escaping: a selection
prompt containing markup passes it through verbatim, so not all untrusted
message text is HTML-escaped before insertion. -/
theorem c9_escape_counterexample :
    jsIncludes (formatEmailSelectionMessage
      "Multiple contacts found for <b>Jane</b>. Please select one or more by number:\n1. <img src=x> (a@b.co)")
      "<b>Jane</b>" = true ∧
    jsIncludes (escapeHtml
      "Multiple contacts found for <b>Jane</b>. Please select one or more by number:\n1. <img src=x> (a@b.co)")
      "<b>Jane</b>" = false ∧
    formatEmailSelectionMessage
      "Multiple contacts found for <b>Jane</b>. Please select one or more by number:\n1. <img src=x> (a@b.co)"
      ≠ escapeHtml
      "Multiple contacts found for <b>Jane</b>. Please select one or more by number:\n1. <img src=x> (a@b.co)" := by
  refine ⟨by decide, by decide, by decide⟩

/-- Claim C9 (amended): escaping happens only on the plain branch — for every
message that is neither a selection prompt nor email-annotated, the rendered
output is exactly the HTML-escaped input with no other transformation. -/
theorem c9_plain_messages_escaped :
    ∀ message : String,
      isSelectionPrompt message = false →
      isEmailAnnotated message = false →
      formatEmailSelectionMessage message = escapeHtml message := by
  intro message h1 h2
  simp [formatEmailSelectionMessage, h1, h2]

/-- Witness for the amended C9 at a concrete plain message. -/
theorem c9_plain_messages_escaped_witness :
    isSelectionPrompt "Hello! How can I help you today?" = false ∧
    isEmailAnnotated "Hello! How can I help you today?" = false ∧
    formatEmailSelectionMessage "Hello! How can I help you today?"
      = escapeHtml "Hello! How can I help you today?" :=
  ⟨by decide, by decide,
    c9_plain_messages_escaped "Hello! How can I help you today?" (by decide) (by decide)⟩

/-! ### Claims C1 and C2: the widget builder on concrete and malformed input -/

/-- When the separator does not occur, the JavaScript split returns the whole
string as its only part. -/
theorem jsSplitList_of_none {sep l : List Char}
    (h : splitFirstList sep l = none) : jsSplitList sep l = [l] := by
  unfold jsSplitList
  simp [jsSplitListAux, h]

/-- The exact message of claim C1. -/
def c1Message : String :=
  "Multiple contacts found for Jane. Please select one or more by number (e.g., ...):\n1. Jane Doe (jane@x.com)\n2. Jane Roe (jane2@x.com)"

/-- Claim C1 (counterexample): for the exact message of the claim the widget
builder produces THREE option controls, not two: after splitting at the
marker and trimming, the first line of the option block is "(e.g., ...):",
and the forEach of chat.js line 235 turns it into an option control of its
own (with undefined details, since the line has no ". " delimiter). -/
theorem c1_widget_counterexample :
    (formatEmailSelectionWidget c1Message).map
        (fun w => w.options.map (fun o => o.number)) = some ["(e.g., ...):", "1", "2"] ∧
    (formatEmailSelectionWidget c1Message).map (fun w => w.options.length) ≠ some 2 := by
  refine ⟨by decide, by decide⟩

/-- Claim C1 (amended): the exact message of the claim yields exactly three
option controls, with ids "(e.g., ...):", "1" and "2" (the first rendering
its details as undefined), plus one select-all control and one confirm
control. -/
theorem c1_widget_amended :
    formatEmailSelectionWidget c1Message = some
      { intro := "Multiple contacts found for Jane. "
        options := [{ number := "(e.g., ...):", details := none },
                    { number := "1", details := some "Jane Doe (jane@x.com)" },
                    { number := "2", details := some "Jane Roe (jane2@x.com)" }]
        selectAllControls := 1
        confirmControls := 1 } := by
  decide

/-- A selection-prompt message whose option block contains a line without the
". " delimiter, used for claim C2. -/
def c2Message : String :=
  "Multiple contacts found for Bob. Please select one or more by number \ngarbage-line\n1. Bob A (b@x.com)"

/-- Claim C2 (counterexample): an option-block line without the ". "
delimiter is NOT dropped: the widget builder still emits an option control
for it (JavaScript split with no separator occurrence returns the whole line,
so the control gets the whole line as its id and undefined details). -/
theorem c2_drop_counterexample :
    (formatEmailSelectionWidget c2Message).map (fun w => w.options)
      = some [{ number := "garbage-line", details := none },
              { number := "1", details := some "Bob A (b@x.com)" }] ∧
    (formatEmailSelectionWidget c2Message).map (fun w => w.options.length) ≠ some 1 := by
  refine ⟨by decide, by decide⟩

/-- Claim C2 (amended): an option-block line without the ". " delimiter still
produces exactly one option control, at the position of the line, whose id is
the entire line and whose details are undefined; no error is raised. -/
theorem c2_no_delimiter_amended :
    ∀ (m : String) (w : SelectionWidget) (i : Nat) (line : String),
      formatEmailSelectionWidget m = some w →
      (optionLines m).get? i = some line →
      jsIncludes line ". " = false →
      w.options.get? i = some { number := line, details := none } := by
  intro m w i line hw hline hinc
  have hopts : w.options = (optionLines m).map parseOptionLine := by
    unfold formatEmailSelectionWidget at hw
    split at hw
    · rw [Option.some.injEq] at hw
      rw [← hw]
    · exact absurd hw (by simp)
  have hnone : splitFirstList (String.data ". ") line.data = none := by
    rw [jsIncludes] at hinc
    exact Option.not_isSome_iff_eq_none.mp (by simp [hinc])
  have hsplit : jsSplit line ". " = [line] := by
    unfold jsSplit
    rw [jsSplitList_of_none hnone]
    rfl
  have hparse : parseOptionLine line = { number := line, details := none } := by
    unfold parseOptionLine
    rw [hsplit]
    rfl
  rw [hopts, List.get?_map, hline, Option.map_some', hparse]

/-- Witness for the amended C2 at the concrete malformed prompt. -/
theorem c2_no_delimiter_amended_witness :
    formatEmailSelectionWidget c2Message = some
      { intro := "Multiple contacts found for Bob. "
        options := [{ number := "garbage-line", details := none },
                    { number := "1", details := some "Bob A (b@x.com)" }]
        selectAllControls := 1
        confirmControls := 1 } ∧
    ({ intro := "Multiple contacts found for Bob. "
       options := [{ number := "garbage-line", details := none },
                   { number := "1", details := some "Bob A (b@x.com)" }]
       selectAllControls := 1
       confirmControls := 1 } : SelectionWidget).options.get? 0
      = some { number := "garbage-line", details := none } :=
  ⟨by decide,
    c2_no_delimiter_amended c2Message
      { intro := "Multiple contacts found for Bob. "
        options := [{ number := "garbage-line", details := none },
                    { number := "1", details := some "Bob A (b@x.com)" }]
        selectAllControls := 1
        confirmControls := 1 }
      0 "garbage-line" (by decide) (by decide) (by decide)⟩

/-! ### Claim C6: the classifier and the split at the marker -/

/-- First element of the fuel-driven split: the text before the first
separator occurrence, or the whole input when the separator is absent. -/
theorem jsSplitListAux_get_zero (sep l : List Char) (n : Nat) :
    (jsSplitListAux sep (n + 1) l).get? 0 =
      some (match splitFirstList sep l with | none => l | some p => p.1) := by
  cases h : splitFirstList sep l with
  | none => simp [jsSplitListAux, h]
  | some p =>
    cases p
    simp [jsSplitListAux, h]

/-- Second element of the fuel-driven split, when the separator occurs: the
text between the first occurrence and the next one (or the rest of the input
when there is no further occurrence). -/
theorem jsSplitListAux_get_one {sep l pre post : List Char} (n : Nat)
    (h : splitFirstList sep l = some (pre, post)) :
    (jsSplitListAux sep (n + 2) l).get? 1 =
      some (match splitFirstList sep post with | none => post | some p => p.1) := by
  have hstep : jsSplitListAux sep (n + 2) l = pre :: jsSplitListAux sep (n + 1) post := by
    show jsSplitListAux sep ((n + 1) + 1) l = pre :: jsSplitListAux sep (n + 1) post
    simp [jsSplitListAux, h]
  rw [hstep]
  simpa using jsSplitListAux_get_zero sep post n

/-- A message containing the marker twice, used to refute claim C6. -/
def c6Message : String :=
  "Multiple contacts found for A. Please select one or more by number X Please select one or more by number Y"

/-- Claim C6 (counterexample): when the marker occurs twice, the option block
computed by the code is the text between the two occurrences, not everything
after the first occurrence as the claim states: the JavaScript destructuring
takes only element 1 of the full split. -/
theorem c6_split_counterexample :
    isSelectionPrompt c6Message = true ∧
    optionBlockSpec c6Message = some " X Please select one or more by number Y" ∧
    optionsTextOf c6Message = " X " ∧
    some (optionsTextOf c6Message) ≠ optionBlockSpec c6Message := by
  refine ⟨by decide, by decide, by decide, by decide⟩

/-- Claim C6 (amended): a bot message is treated as a selection prompt
exactly when it contains both literal substrings (which is the definition of
the classifier); in that case the intro is everything before the first
occurrence of the marker, and the option block is everything after that
occurrence only up to the next occurrence of the marker when one exists (the
text from the second occurrence on is discarded), or to the end of the
message when the marker occurs once. -/
theorem c6_split_amended :
    ∀ m : String, isSelectionPrompt m = true →
      ∃ pre mid : List Char,
        m.data = pre ++ selectionMarker.data ++ mid ∧
        (∀ a b : List Char, m.data = a ++ selectionMarker.data ++ b →
          pre.length ≤ a.length) ∧
        (introText m).data = pre ∧
        ((∀ a b : List Char, mid ≠ a ++ selectionMarker.data ++ b) →
          (optionsTextOf m).data = mid) ∧
        (∀ a b : List Char, mid = a ++ selectionMarker.data ++ b →
          (∀ a2 b2 : List Char, mid = a2 ++ selectionMarker.data ++ b2 →
            a.length ≤ a2.length) →
          (optionsTextOf m).data = a) := by
  intro m hm
  have hinc : jsIncludes m selectionMarker = true := by
    unfold isSelectionPrompt at hm
    rw [Bool.and_eq_true] at hm
    exact hm.2
  rw [jsIncludes] at hinc
  obtain ⟨pr, hpr⟩ := Option.isSome_iff_exists.mp hinc
  obtain ⟨pre, mid⟩ := pr
  have hlen : m.data.length
      = pre.length + selectionMarker.data.length + mid.length :=
    splitFirstList_length hpr
  have hmark : 0 < selectionMarker.data.length := by decide
  obtain ⟨k, hk⟩ : ∃ k, m.data.length + 1 = k + 2 :=
    ⟨m.data.length - 1, by omega⟩
  refine ⟨pre, mid, splitFirstList_append hpr, splitFirstList_minimal hpr,
    ?_, ?_, ?_⟩
  · have h0 := jsSplitListAux_get_zero selectionMarker.data m.data m.data.length
    rw [hpr] at h0
    unfold introText markerParts jsSplit jsSplitList
    rw [List.get?_map, h0]
    rfl
  · intro hno
    have hnone : splitFirstList selectionMarker.data mid = none :=
      splitFirstList_none_iff.mpr hno
    have h1 := jsSplitListAux_get_one k hpr
    rw [hnone] at h1
    unfold optionsTextOf markerParts jsSplit jsSplitList
    rw [hk, List.get?_map, h1]
    rfl
  · intro a b hmid hmin
    have hsome : (splitFirstList selectionMarker.data mid).isSome := by
      rw [hmid]
      exact splitFirstList_isSome_of_append a b
    obtain ⟨q, hq⟩ := Option.isSome_iff_exists.mp hsome
    obtain ⟨q1, q2⟩ := q
    have h1 := jsSplitListAux_get_one k hpr
    rw [hq] at h1
    have hq1a : q1 = a := by
      have hle1 : q1.length ≤ a.length := splitFirstList_minimal hq a b hmid
      have hle2 : a.length ≤ q1.length :=
        hmin q1 q2 (splitFirstList_append hq)
      have hlen12 : q1.length = a.length := Nat.le_antisymm hle1 hle2
      have e1 : mid.take q1.length = q1 := by
        rw [splitFirstList_append hq, List.append_assoc]
        exact List.take_left q1 _
      have e2 : mid.take a.length = a := by
        rw [hmid, List.append_assoc]
        exact List.take_left a _
      rw [← e1, ← e2, hlen12]
    rw [hq1a] at h1
    unfold optionsTextOf markerParts jsSplit jsSplitList
    rw [hk, List.get?_map, h1]
    rfl

/-- A selection prompt in which the marker occurs exactly once, witnessing
the amended C6. -/
def c6SingleMessage : String :=
  "Multiple contacts found for Zoe. Please select one or more by number:\n1. Zoe A (z@a.io)"

/-- Witness for the amended C6 at a concrete single-marker prompt. -/
theorem c6_split_amended_witness :
    ∃ pre mid : List Char,
      c6SingleMessage.data = pre ++ selectionMarker.data ++ mid ∧
      (∀ a b : List Char, c6SingleMessage.data = a ++ selectionMarker.data ++ b →
        pre.length ≤ a.length) ∧
      (introText c6SingleMessage).data = pre ∧
      ((∀ a b : List Char, mid ≠ a ++ selectionMarker.data ++ b) →
        (optionsTextOf c6SingleMessage).data = mid) ∧
      (∀ a b : List Char, mid = a ++ selectionMarker.data ++ b →
        (∀ a2 b2 : List Char, mid = a2 ++ selectionMarker.data ++ b2 →
          a.length ≤ a2.length) →
        (optionsTextOf c6SingleMessage).data = a) :=
  c6_split_amended c6SingleMessage (by decide)
